import Mathlib

/-
Verification of the application blur engine of blur-my-shell
(src/components/applications.js), as a shallow embedding.

JS Map objects are modelled as association lists with in-place update
semantics, JS numbers as rationals, and a JS number that can be NaN as
an Option of a rational (none standing for NaN).
-/

abbrev Pid := String

/-- Lookup in an association list, modelling Map.get. -/
def mapGet {α : Type} (k : Pid) : List (Pid × α) → Option α
  | [] => none
  | (k', v) :: r => if k' = k then some v else mapGet k r

/-- Insertion or in-place update, modelling Map.set. -/
def mapSet {α : Type} (k : Pid) (v : α) : List (Pid × α) → List (Pid × α)
  | [] => [(k, v)]
  | (k', v') :: r => if k' = k then (k, v) :: r else (k', v') :: mapSet k v r

/-- Key removal, modelling Map.delete. -/
def mapDelete {α : Type} (k : Pid) : List (Pid × α) → List (Pid × α)
  | [] => []
  | (k', v') :: r => if k' = k then mapDelete k r else (k', v') :: mapDelete k r

/- Character and string machinery for the JS primitives used by the
   parser: String.prototype.includes, String.prototype.match with the
   three concrete patterns of the source, parseInt and parseFloat. -/

/-- White space accepted by parseInt and parseFloat. -/
def isWS (c : Char) : Bool :=
  c = ' ' || c = '\t' || c = '\n' || c = '\r' || c = '\x0b' || c = '\x0c'

/-- Substring test, modelling String.prototype.includes. -/
def containsSub (sub : List Char) : List Char → Bool
  | [] => sub.isEmpty
  | c :: r => sub.isPrefixOf (c :: r) || containsSub sub r

/-- Characters the regex metacharacter for any character refuses: the
ASCII line terminators (the two non-ASCII ones cannot occur in the
property strings considered here). -/
def isLineTerm (c : Char) : Bool := c = '\n' || c = '\r'

/-- The literal marker of the source regex blur-provider=(.*) as a
character list. -/
def markerChars : List Char := "blur-provider=".toList

/-- Capture of the first match of the regex blur-provider=(.*): the text
after the first occurrence of the marker, up to the first line
terminator. Returns none when the marker does not occur, the JS match
returning null then. -/
def matchAfterMarker : List Char → Option (List Char)
  | [] => none
  | c :: r =>
    if markerChars.isPrefixOf (c :: r) then
      some (((c :: r).drop markerChars.length).takeWhile (fun ch => !isLineTerm ch))
    else matchAfterMarker r

/-- Sign handling shared by parseInt and parseFloat, with the unsigned
remainder of the input. -/
def readSignInt (l : List Char) : Int × List Char :=
  match l with
  | [] => (1, [])
  | c :: r =>
    if c = '-' then (-1, r) else if c = '+' then (1, r) else (1, c :: r)

/-- Value of a decimal digit string. -/
def decNat (l : List Char) : Nat :=
  l.foldl (fun a c => a * 10 + (c.toNat - 48)) 0

def digitsVal (l : List Char) : Int := (decNat l : Int)

def isHexDigit (c : Char) : Bool :=
  c.isDigit || ('a' ≤ c && c ≤ 'f') || ('A' ≤ c && c ≤ 'F')

def hexDigitVal (c : Char) : Nat :=
  if c.isDigit then c.toNat - 48
  else if 'a' ≤ c && c ≤ 'f' then c.toNat - 87
  else c.toNat - 55

def hexNat (l : List Char) : Nat :=
  l.foldl (fun a c => a * 16 + hexDigitVal c) 0

/-- Model of the JS parseInt applied with no radix argument: skip white
space, read an optional sign, then either a 0x or 0X prefixed hexadecimal
numeral or a decimal digit run, ignoring any trailing text. Returns none
where JS returns NaN. -/
def jsParseInt (l : List Char) : Option Int :=
  let l1 := l.dropWhile isWS
  let sl := readSignInt l1
  match sl.2 with
  | '0' :: x :: r =>
    if x = 'x' || x = 'X' then
      let ds := r.takeWhile isHexDigit
      if ds.isEmpty then none else some (sl.1 * (hexNat ds : Int))
    else
      some (sl.1 * digitsVal (sl.2.takeWhile Char.isDigit))
  | _ =>
    let ds := sl.2.takeWhile Char.isDigit
    if ds.isEmpty then none else some (sl.1 * digitsVal ds)

/-- Exponent handling of parseFloat: an e or E followed by an optional
sign and at least one digit scales the mantissa, anything else is
trailing text and is ignored. -/
def applyExp (m : ℚ) (l : List Char) : ℚ :=
  match l with
  | c :: r =>
    if c = 'e' || c = 'E' then
      let se := readSignInt r
      let ds := se.2.takeWhile Char.isDigit
      if ds.isEmpty then m else m * (10 : ℚ) ^ (se.1 * digitsVal ds)
    else m
  | [] => m

/-- Model of the JS parseFloat: skip white space, read an optional sign,
then the longest prefix of the form digits, digits dot digits, or dot
digits, with an optional exponent, ignoring trailing text. Returns none
where JS returns NaN. -/
def jsParseFloat (l : List Char) : Option ℚ :=
  let l1 := l.dropWhile isWS
  let sl := readSignInt l1
  let sgn : ℚ := (sl.1 : ℚ)
  let ip := sl.2.takeWhile Char.isDigit
  let r1 := sl.2.drop ip.length
  if ip.isEmpty then
    match r1 with
    | '.' :: r2 =>
      let fp := r2.takeWhile Char.isDigit
      if fp.isEmpty then none
      else
        some (sgn * applyExp ((decNat fp : ℚ) / (10 : ℚ) ^ fp.length) (r2.drop fp.length))
    | _ => none
  else
    match r1 with
    | '.' :: r2 =>
      let fp := r2.takeWhile Char.isDigit
      some (sgn * applyExp ((decNat ip : ℚ) + (decNat fp : ℚ) / (10 : ℚ) ^ fp.length)
        (r2.drop fp.length))
    | _ => some (sgn * applyExp (decNat ip : ℚ) r1)

/- Model of the two field regexes of parse_xprop. In the JS source the
brightness pattern is written with a backslash dot inside an ordinary
string literal, where the backslash is dropped, so the regex actually
applied is (brightness|b):(default|0?1?.[0-9]*) with a dot that matches
any character except a line terminator. The sigma pattern
(sigma|s):(default|\d{1,3}) keeps its digit class because its backslash
is doubled in the source. The functions below reproduce the leftmost
match with backtracking of these two concrete patterns. -/

/-- Greedy digit run of the regex class [0-9]* and of the class \d. -/
def regexDigits (l : List Char) : List Char := l.takeWhile Char.isDigit

/-- Tail of the brightness value alternative: one any character followed
by a greedy digit run. -/
def anyDigits (l : List Char) : Option (List Char) :=
  match l with
  | [] => none
  | c :: r => if isLineTerm c then none else some (c :: regexDigits r)

/-- Optional literal 1 of the brightness value alternative, with
backtracking to the branch not consuming it. -/
def opt1 (l : List Char) : Option (List Char) :=
  match l with
  | '1' :: r =>
    match anyDigits r with
    | some t => some ('1' :: t)
    | none => anyDigits l
  | _ => anyDigits l

/-- The brightness value alternative 0?1?.[0-9]* with its greedy
backtracking order. -/
def floatVal (l : List Char) : Option (List Char) :=
  match l with
  | '0' :: r =>
    match opt1 r with
    | some t => some ('0' :: t)
    | none => opt1 l
  | _ => opt1 l

def defaultChars : List Char := "default".toList

/-- Group two of the brightness pattern: the literal default is the
first alternative, the float shape the second. -/
def bValue (l : List Char) : Option (List Char) :=
  if l.take 7 = defaultChars then some defaultChars else floatVal l

/-- Group two of the sigma pattern: the literal default, else \d{1,3}
taken greedily. -/
def sValue (l : List Char) : Option (List Char) :=
  if l.take 7 = defaultChars then some defaultChars
  else
    match l with
    | c :: r => if c.isDigit then some (c :: (regexDigits r).take 2) else none
    | [] => none

/-- Match of the brightness pattern anchored at the current position.
When the long label matches but the rest fails, the short label
alternative would need a colon where the long label has its second
letter, so it fails as well. -/
def matchBAt (l : List Char) : Option (List Char) :=
  if l.take 10 = ("brightness".toList) then
    match l.drop 10 with
    | ':' :: r => bValue r
    | _ => none
  else
    match l with
    | 'b' :: ':' :: r => bValue r
    | _ => none

/-- Match of the sigma pattern anchored at the current position. -/
def matchSAt (l : List Char) : Option (List Char) :=
  if l.take 5 = ("sigma".toList) then
    match l.drop 5 with
    | ':' :: r => sValue r
    | _ => none
  else
    match l with
    | 's' :: ':' :: r => sValue r
    | _ => none

/-- Leftmost search of the brightness pattern, returning group two. -/
def searchB : List Char → Option (List Char)
  | [] => none
  | c :: r =>
    match matchBAt (c :: r) with
    | some cap => some cap
    | none => searchB r

/-- Leftmost search of the sigma pattern, returning group two. -/
def searchS : List Char → Option (List Char)
  | [] => none
  | c :: r =>
    match matchSAt (c :: r) with
    | some cap => some cap
    | none => searchS r

/- Data model of the engine. -/

/-- Preference keys read by the applications component, mirroring the
prefs object fields used in the source. Brightness values are Option
rationals since a JS number can be NaN. -/
structure AppPrefs where
  ENABLE_ALL : Bool
  WHITELIST : List String
  BLACKLIST : List String
  CUSTOMIZE : Bool
  BRIGHTNESS : Option ℚ
  SIGMA : Int
deriving DecidableEq

structure Prefs where
  applications : AppPrefs
  BRIGHTNESS : Option ℚ
  SIGMA : Int
  HACKS_LEVEL : Int
  DEBUG : Bool
deriving DecidableEq

/-- The sigma and brightness persisted on a blur actor through its
Shell.BlurEffect. -/
structure BlurBinding where
  brightness : Option ℚ
  sigma : Int
deriving DecidableEq

/-- The mutable state of an ApplicationsBlur instance: the two maps and
the prefs object it reads. The values of window_map are the meta window
references, which carry no information the claims need beyond their
presence, so they are units here. The availability of the parent
container global.window_group is passed to the operations as a boolean
argument wg, since it is global runtime state. -/
structure SysState where
  window_map : List (Pid × Unit)
  blur_actor_map : List (Pid × BlurBinding)
  prefs : Prefs
deriving DecidableEq

def blurHas (pid : Pid) (s : SysState) : Bool :=
  (mapGet pid s.blur_actor_map).isSome

def windowHas (pid : Pid) (s : SysState) : Bool :=
  (mapGet pid s.window_map).isSome

/-- The two maps are keyed by the same token set. -/
def keysync (s : SysState) : Prop :=
  ∀ q : Pid, windowHas q s = blurHas q s

/- Translations of the source functions. -/

/-- Rectangle with integer coordinates. -/
structure Rect where
  x : Int
  y : Int
  width : Int
  height : Int
deriving DecidableEq

/-- Translation of compute_offset, a pure function of the frame and
buffer rectangles of the window. -/
def compute_offset (frame buffer : Rect) : Rect :=
  { x := frame.x - buffer.x
    y := frame.y - buffer.y
    width := frame.width - buffer.width
    height := frame.height - buffer.height }

/-- The brightness and sigma fallbacks read from the prefs, as in the
head of parse_xprop and in the first branch of check_blur. -/
def prefParams (p : Prefs) : Option ℚ × Int :=
  if p.applications.CUSTOMIZE then (p.applications.BRIGHTNESS, p.applications.SIGMA)
  else (p.BRIGHTNESS, p.SIGMA)

/-- The brightness assignment of parse_xprop: the capture overrides the
fallback unless it is null or the literal default, and it is parsed with
parseFloat, whose NaN is stored as is. -/
def pickBrightness (b0 : Option ℚ) (r : Option (List Char)) : Option ℚ :=
  match r with
  | some cap => if cap = defaultChars then b0 else jsParseFloat cap
  | none => b0

/-- The sigma assignment of parse_xprop. The capture of the sigma
pattern is always a digit run when it is not the literal default, so the
parseInt here cannot yield NaN and the getD branch is unreachable. -/
def pickSigma (s0 : Int) (r : Option (List Char)) : Int :=
  match r with
  | some cap => if cap = defaultChars then s0 else (jsParseInt cap).getD s0
  | none => s0

/-- The labelled-fields branch of parse_xprop. -/
def fieldPath (b0 : Option ℚ) (s0 : Int) (a : List Char) : Option ℚ × Int :=
  (pickBrightness b0 (searchB a), pickSigma s0 (searchS a))

/-- Translation of parse_xprop. -/
def parse_xprop (p : Prefs) (property : String) : Option ℚ × Int :=
  let bs := prefParams p
  match matchAfterMarker property.toList with
  | none => bs
  | some a =>
    match jsParseInt a with
    | some v => if 0 ≤ v ∧ v ≤ 999 then (bs.1, v) else fieldPath bs.1 bs.2 a
    | none => fieldPath bs.1 bs.2 a

/-- Translation of remove_blur. The wg argument tells whether
global.window_group is non null; when it is null the function returns at
once. The removal of the actor from the window actor is outside the
modelled state. -/
def remove_blur (wg : Bool) (pid : Pid) (s : SysState) : SysState :=
  if wg then
    match mapGet pid s.window_map with
    | none => s
    | some _ =>
      let s1 : SysState := { s with window_map := mapDelete pid s.window_map }
      match mapGet pid s1.blur_actor_map with
      | none => s1
      | some _ => { s1 with blur_actor_map := mapDelete pid s1.blur_actor_map }
  else s

/-- Translation of create_blur_effect restricted to the modelled state:
it registers the blur actor and the meta window under the token. The
effect construction, paint signal hacks and visibility mirroring do not
touch the two maps. The source calls insert_child_at_index on the window
actor before the two map registrations; when the window actor is gone,
as after the destruction of its window, that call throws and the handler
aborts with both maps untouched. The alive argument tells whether the
window actor is still attachable. -/
def create_blur_effect (alive : Bool) (pid : Pid) (b : Option ℚ) (sg : Int)
    (s : SysState) : SysState :=
  if alive then
    { s with
      blur_actor_map := mapSet pid { brightness := b, sigma := sg } s.blur_actor_map
      window_map := mapSet pid () s.window_map }
  else s

/-- Translation of update_blur_effect: the sigma and brightness of the
existing effect are overwritten in place. -/
def update_blur_effect (pid : Pid) (b : Option ℚ) (sg : Int) (s : SysState) : SysState :=
  { s with blur_actor_map := mapSet pid { brightness := b, sigma := sg } s.blur_actor_map }

/-- Translation of update_blur. The update branch overwrites the stored
effect in place and the removal branch only touches the maps, so only
the creation branch depends on the availability of the window actor. -/
def update_blur (wg alive : Bool) (pid : Pid) (b : Option ℚ) (sg : Int)
    (s : SysState) : SysState :=
  if blurHas pid s then
    if sg = 0 then remove_blur wg pid s
    else update_blur_effect pid b sg s
  else
    if sg ≠ 0 then create_blur_effect alive pid b sg s
    else s

/-- Membership test of the JS Array.prototype.includes applied to a
possibly null class name. -/
def listIncludes (l : List String) (wm : Option String) : Bool :=
  match wm with
  | some c => l.contains c
  | none => false

/-- The first condition of check_blur: the class name is not the empty
string and the list preferences select the window. -/
def classListed (p : Prefs) (wm : Option String) : Bool :=
  (wm != some "") &&
    ((p.applications.ENABLE_ALL && !(listIncludes p.applications.BLACKLIST wm)) ||
     (!p.applications.ENABLE_ALL && listIncludes p.applications.WHITELIST wm))

/-- The hint condition of check_blur: the mutter hint is not null and
contains the marker text, without the equals sign. -/
def hintHasMarker (hint : Option String) : Bool :=
  match hint with
  | some h => containsSub ("blur-provider".toList) h.toList
  | none => false

/-- The policy decision taken by the branch structure of check_blur: the
parameters passed to update_blur in the two enabling branches, or
disabled in the removal branch. -/
inductive Decision where
  | enabled (b : Option ℚ) (sg : Int)
  | disabled
deriving DecidableEq

def check_blur_decision (p : Prefs) (wm hint : Option String) : Decision :=
  if classListed p wm then
    let bs := prefParams p
    Decision.enabled bs.1 bs.2
  else
    match hint with
    | some h =>
      if containsSub ("blur-provider".toList) h.toList then
        let bs := parse_xprop p h
        Decision.enabled bs.1 bs.2
      else Decision.disabled
    | none => Decision.disabled

/-- Translation of check_blur, acting on the window snapshot read at the
head of the function: the wm class and the mutter hint. The alive flag
is the availability of the window actor the caller passes in. -/
def check_blur (wg alive : Bool) (pid : Pid) (wm hint : Option String)
    (s : SysState) : SysState :=
  match check_blur_decision s.prefs wm hint with
  | Decision.enabled b sg => update_blur wg alive pid b sg s
  | Decision.disabled => if blurHas pid s then remove_blur wg pid s else s

/-- Translation of the destroy signal handler installed by track_new. -/
def destroyHandler (wg : Bool) (pid : Pid) (s : SysState) : SysState :=
  let s1 := if blurHas pid s then remove_blur wg pid s else s
  { s1 with window_map := mapDelete pid s1.window_map }

/-- Translation of track_new restricted to the modelled state: the
signal subscriptions it installs are the events of the step relation
below, and the token pid is supplied by the event since its generation
is a fresh random string. What remains is the initial check_blur call. -/
def track_new (wg alive : Bool) (pid : Pid) (wm hint : Option String)
    (s : SysState) : SysState :=
  check_blur wg alive pid wm hint s

/-- First phase of update_all_windows: remove_blur on every key of the
window map. A Map forEach visits the keys present at the start, deleted
keys being exactly the ones already visited. -/
def phase1 (wg : Bool) (s : SysState) : SysState :=
  (s.window_map.map Prod.fst).foldl (fun st pid => remove_blur wg pid st) s

/-- Translation of update_all_windows: the removal sweep, then track_new
on every window of every workspace. The enumeration is given as the list
ws of fresh tokens with the class and hint snapshots of the windows; a
window listed by its workspace is present, so its actor is alive. -/
def update_all_windows (wg : Bool) (ws : List (Pid × Option String × Option String))
    (s : SysState) : SysState :=
  ws.foldl (fun st w => track_new wg true w.1 w.2.1 w.2.2 st) (phase1 wg s)

/-- Translation of set_sigma: overwrite the sigma of the effect of every
blur actor in the binding map. -/
def set_sigma (v : Int) (s : SysState) : SysState :=
  { s with blur_actor_map :=
      s.blur_actor_map.map (fun e => (e.1, { e.2 with sigma := v })) }

/-- Translation of set_brightness. -/
def set_brightness (v : Option ℚ) (s : SysState) : SysState :=
  { s with blur_actor_map :=
      s.blur_actor_map.map (fun e => (e.1, { e.2 with brightness := v })) }

/- Event system. The engine is single threaded and event driven: each
external event runs one synchronous handler. The ghost component records
the most recent policy decision per live token; a token is retired by
its destroy event and by a rescan, which re-keys every window with a
fresh token. The container availability wg is true at every step of
normal operation, shutdown states being treated separately. -/

abbrev Ghost := List (Pid × Decision)

/-- A property change event carries the availability of the window
actor at the time its handler reads it: for a live window it is true,
for a window whose destruction has already been handled the actor is
gone and it is false. -/
inductive Event where
  | checkBlur (pid : Pid) (wm hint : Option String) (alive : Bool)
  | destroy (pid : Pid)
  | rescan (ws : List (Pid × Option String × Option String))
  | setSigma (v : Int)
  | setBrightness (v : Option ℚ)
  | setPrefs (p : Prefs)
deriving DecidableEq

/-- Whether the most recent decision enables a binding: enabled with a
non zero sigma. -/
def decisionOn (d : Decision) : Bool :=
  match d with
  | Decision.enabled _ sg => sg != 0
  | Decision.disabled => false

/-- The binding a decision leaves for its token. -/
def decisionBinding (d : Decision) : Option BlurBinding :=
  match d with
  | Decision.enabled b sg => if sg = 0 then none else some { brightness := b, sigma := sg }
  | Decision.disabled => none

/-- A check_blur run throws before completing exactly when it reaches
the creation branch with a gone window actor: the actor is not alive,
the token is unbound and the decision enables a non zero sigma. -/
def checkAborts (alive : Bool) (d : Decision) (bound : Bool) : Bool :=
  !alive && !bound && decisionOn d

/-- One property change handler run together with its ghost decision
record. A handler that throws in create_blur_effect does not complete,
so no decision is recorded for the token in that case. -/
def checkStep (wg alive : Bool) (pid : Pid) (wm hint : Option String)
    (sg : SysState × Ghost) : SysState × Ghost :=
  (check_blur wg alive pid wm hint sg.1,
   if checkAborts alive (check_blur_decision sg.1.prefs wm hint) (blurHas pid sg.1) then sg.2
   else mapSet pid (check_blur_decision sg.1.prefs wm hint) sg.2)

def applyEvent (wg : Bool) (e : Event) (sg : SysState × Ghost) : SysState × Ghost :=
  match e with
  | Event.checkBlur pid wm hint alive => checkStep wg alive pid wm hint sg
  | Event.destroy pid => (destroyHandler wg pid sg.1, mapDelete pid sg.2)
  | Event.rescan ws =>
    ws.foldl (fun t w => checkStep wg true w.1 w.2.1 w.2.2 t) (phase1 wg sg.1, [])
  | Event.setSigma v => (set_sigma v sg.1, sg.2)
  | Event.setBrightness v => (set_brightness v sg.1, sg.2)
  | Event.setPrefs p => ({ sg.1 with prefs := p }, sg.2)

def runTrace (tr : List Event) (sg : SysState × Ghost) : SysState × Ghost :=
  tr.foldl (fun t e => applyEvent true e t) sg

def initState (p : Prefs) : SysState :=
  { window_map := [], blur_actor_map := [], prefs := p }

/-- States of the engine reachable by event traces during normal
operation, with the parent container available throughout. -/
def Reachable (s : SysState) (g : Ghost) : Prop :=
  ∃ p tr, runTrace tr (initState p, []) = (s, g)

/-- The inductive invariant: the maps are keyed alike, and a token is
bound exactly when its most recent recorded decision enables it. -/
def EngineInv (sg : SysState × Ghost) : Prop :=
  keysync sg.1 ∧
  ∀ q : Pid, blurHas q sg.1 = (mapGet q sg.2).elim false decisionOn

/-- Events whose global sigma propagation, if any, carries a non zero
value. -/
def eventNZ (e : Event) : Prop :=
  ∀ v, e = Event.setSigma v → v ≠ 0

/-- Reachability along traces that never propagate a global sigma of
zero. -/
def ReachableNZ (s : SysState) (g : Ghost) : Prop :=
  ∃ p tr, (∀ e ∈ tr, eventNZ e) ∧ runTrace tr (initState p, []) = (s, g)

/- Bindings never store sigma zero along traces whose global sigma
propagations are non zero. -/

def NZInv (sg : SysState × Ghost) : Prop :=
  EngineInv sg ∧
  ∀ (q : Pid) (bd : BlurBinding), mapGet q sg.1.blur_actor_map = some bd → bd.sigma ≠ 0

/- Events admissible once a token is retired by its destroy handler:
its window actor is gone, so a property change handler for it finds a
dead actor, and rescans key every window with a fresh token, so the old
token never reappears in an enumeration. Handlers for other tokens are
unrestricted. -/

def eventRetired (pid : Pid) : Event → Prop
  | Event.checkBlur q _ _ alive => q = pid → alive = false
  | Event.destroy _ => True
  | Event.rescan ws => ∀ w ∈ ws, w.1 ≠ pid
  | Event.setSigma _ => True
  | Event.setBrightness _ => True
  | Event.setPrefs _ => True

/- Concrete fixtures used by counterexamples and witnesses. -/

def exPrefs : Prefs :=
  { applications :=
      { ENABLE_ALL := true, WHITELIST := [], BLACKLIST := ["Foo"],
        CUSTOMIZE := false, BRIGHTNESS := some (1/2), SIGMA := 30 }
    BRIGHTNESS := some (9/10), SIGMA := 40, HACKS_LEVEL := 0, DEBUG := false }

def exPrefsWL : Prefs :=
  { applications :=
      { ENABLE_ALL := false, WHITELIST := ["Foo"], BLACKLIST := [],
        CUSTOMIZE := false, BRIGHTNESS := some (1/2), SIGMA := 30 }
    BRIGHTNESS := some (9/10), SIGMA := 40, HACKS_LEVEL := 0, DEBUG := false }

def c1Trace : List Event :=
  [Event.checkBlur "p" (some "Foo") none true, Event.setSigma 0]

def c1Pair : SysState × Ghost := runTrace c1Trace (initState exPrefsWL, [])

def c1NZTrace : List Event := [Event.checkBlur "p" (some "Foo") none true]

def c1NZPair : SysState × Ghost := runTrace c1NZTrace (initState exPrefsWL, [])

def c3State : SysState :=
  { window_map := [("p", ())]
    blur_actor_map := [("p", { brightness := some 1, sigma := 5 })]
    prefs := exPrefs }

theorem mapGet_mapSet_self {α : Type} (k : Pid) (v : α) (m : List (Pid × α)) :
    mapGet k (mapSet k v m) = some v := by
  induction m with
  | nil => simp [mapSet, mapGet]
  | cons e r ih =>
    obtain ⟨k', v'⟩ := e
    by_cases h : k' = k
    · simp [mapSet, h, mapGet]
    · simp [mapSet, h, mapGet, ih]

theorem mapGet_mapSet_ne {α : Type} {q k : Pid} (v : α) (m : List (Pid × α))
    (h : q ≠ k) : mapGet q (mapSet k v m) = mapGet q m := by
  have hkq : ¬ k = q := fun he => h he.symm
  induction m with
  | nil => simp [mapSet, mapGet, hkq]
  | cons e r ih =>
    obtain ⟨k', v'⟩ := e
    by_cases hk : k' = k
    · simp [mapSet, hk, mapGet, hkq]
    · simp [mapSet, hk, mapGet, ih]

theorem mapGet_mapDelete_self {α : Type} (k : Pid) (m : List (Pid × α)) :
    mapGet k (mapDelete k m) = none := by
  induction m with
  | nil => simp [mapDelete, mapGet]
  | cons e r ih =>
    obtain ⟨k', v'⟩ := e
    by_cases h : k' = k
    · simp [mapDelete, h, ih]
    · simp [mapDelete, h, mapGet, ih]

theorem mapGet_mapDelete_ne {α : Type} {q k : Pid} (m : List (Pid × α))
    (h : q ≠ k) : mapGet q (mapDelete k m) = mapGet q m := by
  have hkq : ¬ k = q := fun he => h he.symm
  induction m with
  | nil => simp [mapDelete]
  | cons e r ih =>
    obtain ⟨k', v'⟩ := e
    by_cases hk : k' = k
    · simp [mapDelete, hk, mapGet, hkq, ih]
    · simp [mapDelete, hk, mapGet, ih]

theorem mapDelete_of_get_none {α : Type} {k : Pid} {m : List (Pid × α)}
    (h : mapGet k m = none) : mapDelete k m = m := by
  induction m with
  | nil => simp [mapDelete]
  | cons e r ih =>
    obtain ⟨k', v'⟩ := e
    by_cases hk : k' = k
    · simp [mapGet, hk] at h
    · simp [mapGet, hk] at h
      simp [mapDelete, hk, ih h]

theorem mapGet_mapValues {α β : Type} (f : α → β) (q : Pid) (m : List (Pid × α)) :
    mapGet q (m.map (fun e => (e.1, f e.2))) = (mapGet q m).map f := by
  induction m with
  | nil => simp [mapGet]
  | cons e r ih =>
    obtain ⟨k', v'⟩ := e
    by_cases h : k' = q <;> simp [mapGet, h, ih]

theorem not_isWS_of_isDigit {c : Char} (h : c.isDigit = true) : isWS c = false := by
  by_contra hws
  rw [Bool.not_eq_false] at hws
  have hc : c = ' ' ∨ c = '\t' ∨ c = '\n' ∨ c = '\r' ∨ c = '\x0b' ∨ c = '\x0c' := by
    simpa [isWS, or_assoc] using hws
  rcases hc with h1 | h1 | h1 | h1 | h1 | h1 <;> (subst h1; revert h; decide)

/- Pointwise lemmas about the handlers. -/

theorem isSome_false_eq_none {α : Type} {o : Option α} (h : o.isSome = false) : o = none := by
  cases o with
  | none => rfl
  | some v => simp at h

theorem remove_blur_prefs (wg : Bool) (pid : Pid) (s : SysState) :
    (remove_blur wg pid s).prefs = s.prefs := by
  cases wg with
  | false => simp [remove_blur]
  | true =>
    rcases hw : mapGet pid s.window_map with _ | u
    · simp [remove_blur, hw]
    · rcases hb : mapGet pid s.blur_actor_map with _ | v <;> simp [remove_blur, hw, hb]

theorem blur_remove_ne {q pid : Pid} (wg : Bool) (s : SysState) (h : q ≠ pid) :
    mapGet q (remove_blur wg pid s).blur_actor_map = mapGet q s.blur_actor_map := by
  cases wg with
  | false => simp [remove_blur]
  | true =>
    rcases hw : mapGet pid s.window_map with _ | u
    · simp [remove_blur, hw]
    · rcases hb : mapGet pid s.blur_actor_map with _ | v <;>
        simp [remove_blur, hw, hb, mapGet_mapDelete_ne _ h]

theorem wget_remove_ne {q pid : Pid} (wg : Bool) (s : SysState) (h : q ≠ pid) :
    mapGet q (remove_blur wg pid s).window_map = mapGet q s.window_map := by
  cases wg with
  | false => simp [remove_blur]
  | true =>
    rcases hw : mapGet pid s.window_map with _ | u
    · simp [remove_blur, hw]
    · rcases hb : mapGet pid s.blur_actor_map with _ | v <;>
        simp [remove_blur, hw, hb, mapGet_mapDelete_ne _ h]

theorem wget_remove_self (pid : Pid) (s : SysState) :
    mapGet pid (remove_blur true pid s).window_map = none := by
  rcases hw : mapGet pid s.window_map with _ | u
  · simp [remove_blur, hw]
  · rcases hb : mapGet pid s.blur_actor_map with _ | v <;>
      simp [remove_blur, hw, hb, mapGet_mapDelete_self]

theorem blur_remove_self (pid : Pid) (s : SysState) (h : keysync s) :
    mapGet pid (remove_blur true pid s).blur_actor_map = none := by
  rcases hw : mapGet pid s.window_map with _ | u
  · have hb : blurHas pid s = false := by
      rw [← h pid]; simp [windowHas, hw]
    simp [remove_blur, hw]
    exact isSome_false_eq_none hb
  · have hb : blurHas pid s = true := by
      rw [← h pid]; simp [windowHas, hw]
    rcases hbv : mapGet pid s.blur_actor_map with _ | v
    · simp [blurHas, hbv] at hb
    · simp [remove_blur, hw, hbv, mapGet_mapDelete_self]

theorem window_remove_self (pid : Pid) (s : SysState) :
    windowHas pid (remove_blur true pid s) = false := by
  simp [windowHas, wget_remove_self]

theorem keysync_remove (pid : Pid) {s : SysState} (h : keysync s) :
    keysync (remove_blur true pid s) := by
  intro q
  by_cases hq : q = pid
  · subst hq
    rw [window_remove_self, blurHas, blur_remove_self q s h]
    rfl
  · rw [windowHas, wget_remove_ne _ _ hq, blurHas, blur_remove_ne _ _ hq]
    exact h q

theorem update_blur_prefs (wg alive : Bool) (pid : Pid) (b : Option ℚ) (sg : Int)
    (s : SysState) : (update_blur wg alive pid b sg s).prefs = s.prefs := by
  by_cases hb : blurHas pid s <;> by_cases hz : sg = 0 <;> cases alive <;>
    simp [update_blur, hb, hz, update_blur_effect, create_blur_effect, remove_blur_prefs]

theorem blur_update_ne {q pid : Pid} (wg alive : Bool) (b : Option ℚ) (sg : Int)
    (s : SysState) (h : q ≠ pid) :
    mapGet q (update_blur wg alive pid b sg s).blur_actor_map = mapGet q s.blur_actor_map := by
  by_cases hb : blurHas pid s <;> by_cases hz : sg = 0 <;> cases alive <;>
    simp [update_blur, hb, hz, update_blur_effect, create_blur_effect,
      blur_remove_ne _ _ h, mapGet_mapSet_ne _ _ h]

theorem wget_update_ne {q pid : Pid} (wg alive : Bool) (b : Option ℚ) (sg : Int)
    (s : SysState) (h : q ≠ pid) :
    mapGet q (update_blur wg alive pid b sg s).window_map = mapGet q s.window_map := by
  by_cases hb : blurHas pid s <;> by_cases hz : sg = 0 <;> cases alive <;>
    simp [update_blur, hb, hz, update_blur_effect, create_blur_effect,
      wget_remove_ne _ _ h, mapGet_mapSet_ne _ _ h]

theorem update_blur_unbound_dead (wg : Bool) (pid : Pid) (b : Option ℚ) (sg : Int)
    (s : SysState) (hb : blurHas pid s = false) :
    update_blur wg false pid b sg s = s := by
  by_cases hz : sg = 0 <;> simp [update_blur, hb, hz, create_blur_effect]

theorem blur_update_self (alive : Bool) (pid : Pid) (b : Option ℚ) (sg : Int) (s : SysState)
    (h : keysync s) (halive : alive = true ∨ blurHas pid s = true ∨ sg = 0) :
    mapGet pid (update_blur true alive pid b sg s).blur_actor_map =
      (if sg = 0 then none else some { brightness := b, sigma := sg }) := by
  by_cases hb : blurHas pid s <;> by_cases hz : sg = 0
  · simp [update_blur, hb, hz, blur_remove_self pid s h]
  · simp [update_blur, hb, hz, update_blur_effect, mapGet_mapSet_self]
  · simp only [update_blur, hb, Bool.false_eq_true, if_false, hz, ne_eq,
      not_true_eq_false, if_neg]
    simp [hz]
    exact isSome_false_eq_none (by simpa [blurHas] using hb)
  · have ha : alive = true := by
      rcases halive with h1 | h1 | h1
      · exact h1
      · exact absurd h1 hb
      · exact absurd h1 hz
    subst ha
    simp [update_blur, hb, hz, create_blur_effect, mapGet_mapSet_self]

theorem wget_update_self (alive : Bool) (pid : Pid) (b : Option ℚ) (sg : Int) (s : SysState)
    (h : keysync s) (halive : alive = true ∨ blurHas pid s = true ∨ sg = 0) :
    mapGet pid (update_blur true alive pid b sg s).window_map =
      (if sg = 0 then none else some ()) := by
  have hks := h pid
  by_cases hb : blurHas pid s <;> by_cases hz : sg = 0
  · simp [update_blur, hb, hz, wget_remove_self]
  · rw [hb] at hks
    rcases hw : mapGet pid s.window_map with _ | u
    · rw [windowHas, hw] at hks
      simp at hks
    · cases u
      simp [update_blur, hb, hz, update_blur_effect, hw]
  · have hb2 : blurHas pid s = false := by simpa using hb
    rw [hb2] at hks
    rw [windowHas] at hks
    simp [update_blur, hb, hz, isSome_false_eq_none hks]
  · have ha : alive = true := by
      rcases halive with h1 | h1 | h1
      · exact h1
      · exact absurd h1 hb
      · exact absurd h1 hz
    subst ha
    simp [update_blur, hb, hz, create_blur_effect, mapGet_mapSet_self]

theorem window_update_self (alive : Bool) (pid : Pid) (b : Option ℚ) (sg : Int)
    (s : SysState) (h : keysync s)
    (halive : alive = true ∨ blurHas pid s = true ∨ sg = 0) :
    windowHas pid (update_blur true alive pid b sg s) = (sg != 0) := by
  rw [windowHas, wget_update_self alive pid b sg s h halive]
  by_cases hz : sg = 0 <;> simp [hz]

theorem keysync_update (alive : Bool) (pid : Pid) (b : Option ℚ) (sg : Int) {s : SysState}
    (h : keysync s) : keysync (update_blur true alive pid b sg s) := by
  intro q
  by_cases hq : q = pid
  · subst hq
    by_cases hb : blurHas q s
    · rw [window_update_self alive q b sg s h (Or.inr (Or.inl hb)), blurHas,
        blur_update_self alive q b sg s h (Or.inr (Or.inl hb))]
      by_cases hz : sg = 0 <;> simp [hz]
    · have hb2 : blurHas q s = false := by simpa using hb
      by_cases hz : sg = 0
      · rw [window_update_self alive q b sg s h (Or.inr (Or.inr hz)), blurHas,
          blur_update_self alive q b sg s h (Or.inr (Or.inr hz))]
        simp [hz]
      · cases alive
        · rw [update_blur_unbound_dead true q b sg s hb2]
          exact h q
        · rw [window_update_self true q b sg s h (Or.inl rfl), blurHas,
            blur_update_self true q b sg s h (Or.inl rfl)]
          simp [hz]
  · rw [windowHas, wget_update_ne _ _ _ _ _ hq, blurHas, blur_update_ne _ _ _ _ _ hq]
    exact h q

theorem check_blur_prefs (wg alive : Bool) (pid : Pid) (wm hint : Option String)
    (s : SysState) : (check_blur wg alive pid wm hint s).prefs = s.prefs := by
  cases hd : check_blur_decision s.prefs wm hint with
  | enabled b sg => simp [check_blur, hd, update_blur_prefs]
  | disabled =>
    by_cases hb : blurHas pid s <;> simp [check_blur, hd, hb, remove_blur_prefs]

theorem blur_check_ne {q pid : Pid} (wg alive : Bool) (wm hint : Option String)
    (s : SysState) (h : q ≠ pid) :
    mapGet q (check_blur wg alive pid wm hint s).blur_actor_map =
      mapGet q s.blur_actor_map := by
  cases hd : check_blur_decision s.prefs wm hint with
  | enabled b sg => simp [check_blur, hd, blur_update_ne _ _ _ _ _ h]
  | disabled =>
    by_cases hb : blurHas pid s <;> simp [check_blur, hd, hb, blur_remove_ne _ _ h]

theorem wget_check_ne {q pid : Pid} (wg alive : Bool) (wm hint : Option String)
    (s : SysState) (h : q ≠ pid) :
    mapGet q (check_blur wg alive pid wm hint s).window_map = mapGet q s.window_map := by
  cases hd : check_blur_decision s.prefs wm hint with
  | enabled b sg => simp [check_blur, hd, wget_update_ne _ _ _ _ _ h]
  | disabled =>
    by_cases hb : blurHas pid s <;> simp [check_blur, hd, hb, wget_remove_ne _ _ h]

theorem check_blur_aborts (wg alive : Bool) (pid : Pid) (wm hint : Option String)
    (s : SysState)
    (habort : checkAborts alive (check_blur_decision s.prefs wm hint)
      (blurHas pid s) = true) :
    check_blur wg alive pid wm hint s = s := by
  rw [checkAborts, Bool.and_eq_true, Bool.and_eq_true] at habort
  obtain ⟨⟨ha, hbnd⟩, hon⟩ := habort
  rw [Bool.not_eq_true'] at ha hbnd
  cases hd : check_blur_decision s.prefs wm hint with
  | enabled b sg =>
    rw [hd] at hon
    have hz : sg ≠ 0 := by simpa [decisionOn] using hon
    subst ha
    simp [check_blur, hd, update_blur, hbnd, hz, create_blur_effect]
  | disabled =>
    rw [hd] at hon
    simp [decisionOn] at hon

theorem check_dead_unbound (wg : Bool) (pid : Pid) (wm hint : Option String)
    (s : SysState) (hb : blurHas pid s = false) :
    check_blur wg false pid wm hint s = s := by
  cases hd : check_blur_decision s.prefs wm hint with
  | enabled b sg => simp [check_blur, hd, update_blur_unbound_dead _ _ _ _ _ hb]
  | disabled => simp [check_blur, hd, hb]

theorem checkAborts_enabled_alive {alive : Bool} {b : Option ℚ} {sg : Int} {bound : Bool}
    (hna : checkAborts alive (Decision.enabled b sg) bound = false) :
    alive = true ∨ bound = true ∨ sg = 0 := by
  cases alive
  · cases hbv : bound
    · right; right
      rw [checkAborts, hbv] at hna
      simpa [decisionOn] using hna
    · exact Or.inr (Or.inl rfl)
  · exact Or.inl rfl

theorem blur_check_self (alive : Bool) (pid : Pid) (wm hint : Option String) (s : SysState)
    (h : keysync s)
    (hna : checkAborts alive (check_blur_decision s.prefs wm hint)
      (blurHas pid s) = false) :
    mapGet pid (check_blur true alive pid wm hint s).blur_actor_map =
      decisionBinding (check_blur_decision s.prefs wm hint) := by
  cases hd : check_blur_decision s.prefs wm hint with
  | enabled b sg =>
    rw [hd] at hna
    have halive := checkAborts_enabled_alive hna
    simp [check_blur, hd, decisionBinding, blur_update_self alive pid b sg s h halive]
  | disabled =>
    by_cases hb : blurHas pid s
    · simp [check_blur, hd, hb, decisionBinding, blur_remove_self pid s h]
    · have hb2 : blurHas pid s = false := by simpa using hb
      rw [blurHas] at hb2
      simp [check_blur, hd, hb, decisionBinding, isSome_false_eq_none hb2]

theorem window_check_self (alive : Bool) (pid : Pid) (wm hint : Option String)
    (s : SysState) (h : keysync s)
    (hna : checkAborts alive (check_blur_decision s.prefs wm hint)
      (blurHas pid s) = false) :
    windowHas pid (check_blur true alive pid wm hint s) =
      decisionOn (check_blur_decision s.prefs wm hint) := by
  cases hd : check_blur_decision s.prefs wm hint with
  | enabled b sg =>
    rw [hd] at hna
    have halive := checkAborts_enabled_alive hna
    simp [check_blur, hd, decisionOn, window_update_self alive pid b sg s h halive]
  | disabled =>
    by_cases hb : blurHas pid s
    · simp [check_blur, hd, hb, decisionOn, window_remove_self]
    · have hb2 : blurHas pid s = false := by simpa using hb
      rw [← h pid] at hb2
      simp [check_blur, hd, hb, decisionOn, hb2]

theorem keysync_check (alive : Bool) (pid : Pid) (wm hint : Option String) {s : SysState}
    (h : keysync s) : keysync (check_blur true alive pid wm hint s) := by
  cases hd : check_blur_decision s.prefs wm hint with
  | enabled b sg =>
    have := @keysync_update alive pid b sg s h
    simpa [check_blur, hd] using this
  | disabled =>
    by_cases hb : blurHas pid s
    · have := @keysync_remove pid s h
      simpa [check_blur, hd, hb] using this
    · simpa [check_blur, hd, hb] using h

theorem blur_destroy_ne {q pid : Pid} (wg : Bool) (s : SysState) (h : q ≠ pid) :
    mapGet q (destroyHandler wg pid s).blur_actor_map = mapGet q s.blur_actor_map := by
  by_cases hb : blurHas pid s <;> simp [destroyHandler, hb, blur_remove_ne _ _ h]

theorem wget_destroy_ne {q pid : Pid} (wg : Bool) (s : SysState) (h : q ≠ pid) :
    mapGet q (destroyHandler wg pid s).window_map = mapGet q s.window_map := by
  by_cases hb : blurHas pid s <;>
    simp [destroyHandler, hb, mapGet_mapDelete_ne _ h, wget_remove_ne _ _ h]

theorem blur_destroy_self (pid : Pid) (s : SysState) (h : keysync s) :
    mapGet pid (destroyHandler true pid s).blur_actor_map = none := by
  by_cases hb : blurHas pid s
  · simp [destroyHandler, hb, blur_remove_self pid s h]
  · have hb' : blurHas pid s = false := by simpa using hb
    rw [blurHas] at hb'
    simp [destroyHandler, hb, isSome_false_eq_none hb']

theorem wget_destroy_self (wg : Bool) (pid : Pid) (s : SysState) :
    mapGet pid (destroyHandler wg pid s).window_map = none := by
  by_cases hb : blurHas pid s <;> simp [destroyHandler, hb, mapGet_mapDelete_self]

theorem destroy_prefs (wg : Bool) (pid : Pid) (s : SysState) :
    (destroyHandler wg pid s).prefs = s.prefs := by
  by_cases hb : blurHas pid s <;> simp [destroyHandler, hb, remove_blur_prefs]

theorem keysync_destroy (pid : Pid) {s : SysState} (h : keysync s) :
    keysync (destroyHandler true pid s) := by
  intro q
  by_cases hq : q = pid
  · subst hq
    rw [windowHas, wget_destroy_self, blurHas, blur_destroy_self q s h]
    rfl
  · rw [windowHas, wget_destroy_ne _ _ hq, blurHas, blur_destroy_ne _ _ hq]
    exact h q

theorem set_sigma_window (v : Int) (s : SysState) :
    (set_sigma v s).window_map = s.window_map := rfl

theorem set_sigma_prefs (v : Int) (s : SysState) :
    (set_sigma v s).prefs = s.prefs := rfl

theorem blur_set_sigma (v : Int) (q : Pid) (s : SysState) :
    mapGet q (set_sigma v s).blur_actor_map =
      (mapGet q s.blur_actor_map).map (fun bd => { bd with sigma := v }) := by
  have hgen : ∀ (m : List (Pid × BlurBinding)),
      mapGet q (m.map (fun e => (e.1, { e.2 with sigma := v }))) =
        (mapGet q m).map (fun bd => { bd with sigma := v }) := by
    intro m
    induction m with
    | nil => simp [mapGet]
    | cons e r ih =>
      obtain ⟨k', v'⟩ := e
      by_cases h : k' = q <;> simp [mapGet, h, ih]
  exact hgen s.blur_actor_map

theorem set_brightness_window (v : Option ℚ) (s : SysState) :
    (set_brightness v s).window_map = s.window_map := rfl

theorem set_brightness_prefs (v : Option ℚ) (s : SysState) :
    (set_brightness v s).prefs = s.prefs := rfl

theorem blur_set_brightness (v : Option ℚ) (q : Pid) (s : SysState) :
    mapGet q (set_brightness v s).blur_actor_map =
      (mapGet q s.blur_actor_map).map (fun bd => { bd with brightness := v }) := by
  have hgen : ∀ (m : List (Pid × BlurBinding)),
      mapGet q (m.map (fun e => (e.1, { e.2 with brightness := v }))) =
        (mapGet q m).map (fun bd => { bd with brightness := v }) := by
    intro m
    induction m with
    | nil => simp [mapGet]
    | cons e r ih =>
      obtain ⟨k', v'⟩ := e
      by_cases h : k' = q <;> simp [mapGet, h, ih]
  exact hgen s.blur_actor_map

theorem keysync_set_sigma (v : Int) {s : SysState} (h : keysync s) :
    keysync (set_sigma v s) := by
  intro q
  have hq := h q
  rw [windowHas, blurHas] at hq ⊢
  rw [set_sigma_window, blur_set_sigma]
  rcases hm : mapGet q s.blur_actor_map with _ | bd <;> rw [hm] at hq <;> simpa using hq

theorem keysync_set_brightness (v : Option ℚ) {s : SysState} (h : keysync s) :
    keysync (set_brightness v s) := by
  intro q
  have hq := h q
  rw [windowHas, blurHas] at hq ⊢
  rw [set_brightness_window, blur_set_brightness]
  rcases hm : mapGet q s.blur_actor_map with _ | bd <;> rw [hm] at hq <;> simpa using hq

/-- Preservation of a predicate along a left fold. -/
theorem foldl_preserve {σ α : Type} (f : σ → α → σ) (P : σ → Prop)
    (h : ∀ st a, P st → P (f st a)) : ∀ (l : List α) (st : σ), P st → P (l.foldl f st) := by
  intro l
  induction l with
  | nil => intro st hp; simpa using hp
  | cons a r ih =>
    intro st hp
    simpa using ih (f st a) (h st a hp)

/- The removal sweep of update_all_windows. -/

theorem mem_keys_of_get_isSome {α : Type} {p : Pid} :
    ∀ {m : List (Pid × α)}, (mapGet p m).isSome = true → p ∈ m.map Prod.fst := by
  intro m
  induction m with
  | nil => intro h; simp [mapGet] at h
  | cons e r ih =>
    obtain ⟨k', v'⟩ := e
    intro h
    by_cases hk : k' = p
    · simp [hk]
    · rw [mapGet, if_neg hk] at h
      simp [ih h]

theorem sweep_aux (l : List Pid) :
    ∀ s : SysState, keysync s → (∀ p : Pid, windowHas p s = true → p ∈ l) →
      keysync (l.foldl (fun st pid => remove_blur true pid st) s) ∧
      (∀ p : Pid, windowHas p (l.foldl (fun st pid => remove_blur true pid st) s) = false) ∧
      (l.foldl (fun st pid => remove_blur true pid st) s).prefs = s.prefs := by
  induction l with
  | nil =>
    intro s hks hmem
    refine ⟨hks, ?_, rfl⟩
    intro p
    by_contra hp
    rw [Bool.not_eq_false] at hp
    exact absurd (hmem p (by simpa using hp)) (by simp)
  | cons k t ih =>
    intro s hks hmem
    have hks' := keysync_remove k hks
    have hmem' : ∀ p : Pid, windowHas p (remove_blur true k s) = true → p ∈ t := by
      intro p hp
      by_cases hpk : p = k
      · subst hpk
        rw [window_remove_self] at hp
        simp at hp
      · rw [windowHas, wget_remove_ne _ _ hpk] at hp
        have := hmem p hp
        simp [hpk] at this
        exact this
    have := ih (remove_blur true k s) hks' hmem'
    refine ⟨this.1, this.2.1, ?_⟩
    rw [List.foldl_cons, this.2.2, remove_blur_prefs]

theorem phase1_spec (s : SysState) (h : keysync s) :
    keysync (phase1 true s) ∧ (∀ p : Pid, windowHas p (phase1 true s) = false) ∧
      (∀ p : Pid, blurHas p (phase1 true s) = false) ∧ (phase1 true s).prefs = s.prefs := by
  have hmem : ∀ p : Pid, windowHas p s = true → p ∈ s.window_map.map Prod.fst := by
    intro p hp
    exact mem_keys_of_get_isSome (by simpa [windowHas] using hp)
  have hs := sweep_aux (s.window_map.map Prod.fst) s h hmem
  refine ⟨hs.1, hs.2.1, ?_, hs.2.2⟩
  intro p
  show blurHas p
    (List.foldl (fun st pid => remove_blur true pid st) s (List.map Prod.fst s.window_map)) = false
  rw [← hs.1 p]
  exact hs.2.1 p

/- The inductive invariant of the event system. -/

theorem engineInv_init (p : Prefs) : EngineInv (initState p, []) := by
  constructor
  · intro q
    rfl
  · intro q
    rfl

theorem engineInv_checkStep (alive : Bool) (pid : Pid) (wm hint : Option String)
    (sg : SysState × Ghost) (h : EngineInv sg) :
    EngineInv (checkStep true alive pid wm hint sg) := by
  obtain ⟨hks, hiff⟩ := h
  by_cases habort : checkAborts alive (check_blur_decision sg.1.prefs wm hint)
      (blurHas pid sg.1) = true
  · have hst := check_blur_aborts true alive pid wm hint sg.1 habort
    have hid : checkStep true alive pid wm hint sg = sg := by
      rw [checkStep, hst, if_pos habort]
    rw [hid]
    exact ⟨hks, hiff⟩
  · have hna : checkAborts alive (check_blur_decision sg.1.prefs wm hint)
        (blurHas pid sg.1) = false := by simpa using habort
    constructor
    · exact keysync_check alive pid wm hint hks
    · intro q
      by_cases hq : q = pid
      · subst hq
        rw [blurHas, checkStep, blur_check_self alive q wm hint sg.1 hks hna]
        simp only [checkStep, hna, Bool.false_eq_true, if_false, mapGet_mapSet_self]
        cases check_blur_decision sg.1.prefs wm hint with
        | enabled b sgm =>
          by_cases hz : sgm = 0 <;> simp [decisionBinding, decisionOn, hz]
        | disabled => simp [decisionBinding, decisionOn]
      · rw [blurHas, checkStep, blur_check_ne _ _ _ _ _ hq]
        simp only [checkStep, hna, Bool.false_eq_true, if_false, mapGet_mapSet_ne _ _ hq]
        exact hiff q

theorem engineInv_destroy (pid : Pid) (sg : SysState × Ghost) (h : EngineInv sg) :
    EngineInv (destroyHandler true pid sg.1, mapDelete pid sg.2) := by
  obtain ⟨hks, hiff⟩ := h
  constructor
  · exact keysync_destroy pid hks
  · intro q
    by_cases hq : q = pid
    · subst hq
      rw [blurHas, blur_destroy_self q sg.1 hks, mapGet_mapDelete_self]
      rfl
    · rw [blurHas, blur_destroy_ne _ _ hq, mapGet_mapDelete_ne _ hq]
      exact hiff q

theorem engineInv_applyEvent (e : Event) (sg : SysState × Ghost) (h : EngineInv sg) :
    EngineInv (applyEvent true e sg) := by
  cases e with
  | checkBlur pid wm hint alive => exact engineInv_checkStep alive pid wm hint sg h
  | destroy pid => exact engineInv_destroy pid sg h
  | rescan ws =>
    have hp := phase1_spec sg.1 h.1
    have hbase : EngineInv (phase1 true sg.1, ([] : Ghost)) := by
      refine ⟨hp.1, ?_⟩
      intro q
      rw [hp.2.2.1 q]
      rfl
    exact foldl_preserve _ EngineInv
      (fun st w hst => engineInv_checkStep true w.1 w.2.1 w.2.2 st hst) ws _ hbase
  | setSigma v =>
    obtain ⟨hks, hiff⟩ := h
    refine ⟨keysync_set_sigma v hks, ?_⟩
    intro q
    rw [applyEvent]
    rw [blurHas, blur_set_sigma]
    rcases hm : mapGet q sg.1.blur_actor_map with _ | bd <;>
      have hq := hiff q <;> rw [blurHas, hm] at hq <;> simpa using hq
  | setBrightness v =>
    obtain ⟨hks, hiff⟩ := h
    refine ⟨keysync_set_brightness v hks, ?_⟩
    intro q
    rw [applyEvent]
    rw [blurHas, blur_set_brightness]
    rcases hm : mapGet q sg.1.blur_actor_map with _ | bd <;>
      have hq := hiff q <;> rw [blurHas, hm] at hq <;> simpa using hq
  | setPrefs p =>
    obtain ⟨hks, hiff⟩ := h
    exact ⟨fun q => hks q, fun q => hiff q⟩

theorem engineInv_of_reachable {s : SysState} {g : Ghost} (h : Reachable s g) :
    EngineInv (s, g) := by
  obtain ⟨p, tr, hrun⟩ := h
  rw [← hrun]
  exact foldl_preserve _ EngineInv (fun st e hst => engineInv_applyEvent e st hst)
    tr _ (engineInv_init p)

theorem nzInv_checkStep (alive : Bool) (pid : Pid) (wm hint : Option String)
    (sg : SysState × Ghost) (h : NZInv sg) : NZInv (checkStep true alive pid wm hint sg) := by
  obtain ⟨hinv, hnz⟩ := h
  refine ⟨engineInv_checkStep alive pid wm hint sg hinv, ?_⟩
  by_cases habort : checkAborts alive (check_blur_decision sg.1.prefs wm hint)
      (blurHas pid sg.1) = true
  · have hst := check_blur_aborts true alive pid wm hint sg.1 habort
    have hid : checkStep true alive pid wm hint sg = sg := by
      rw [checkStep, hst, if_pos habort]
    rw [hid]
    exact hnz
  · have hna : checkAborts alive (check_blur_decision sg.1.prefs wm hint)
        (blurHas pid sg.1) = false := by simpa using habort
    intro q bd hq
    by_cases hqp : q = pid
    · subst hqp
      rw [checkStep] at hq
      rw [blur_check_self alive q wm hint sg.1 hinv.1 hna] at hq
      cases hd : check_blur_decision sg.1.prefs wm hint with
      | enabled b sgm =>
        rw [hd] at hq
        by_cases hz : sgm = 0
        · simp [decisionBinding, hz] at hq
        · simp [decisionBinding, hz] at hq
          rw [← hq]
          exact hz
      | disabled =>
        rw [hd] at hq
        simp [decisionBinding] at hq
    · rw [checkStep] at hq
      rw [blur_check_ne _ _ _ _ _ hqp] at hq
      exact hnz q bd hq

theorem nzInv_applyEvent (e : Event) (sg : SysState × Ghost) (he : eventNZ e)
    (h : NZInv sg) : NZInv (applyEvent true e sg) := by
  cases e with
  | checkBlur pid wm hint alive => exact nzInv_checkStep alive pid wm hint sg h
  | destroy pid =>
    refine ⟨engineInv_applyEvent (Event.destroy pid) sg h.1, ?_⟩
    intro q bd hq
    by_cases hqp : q = pid
    · subst hqp
      rw [applyEvent] at hq
      rw [blur_destroy_self q sg.1 h.1.1] at hq
      exact absurd hq (by simp)
    · rw [applyEvent] at hq
      rw [blur_destroy_ne _ _ hqp] at hq
      exact h.2 q bd hq
  | rescan ws =>
    have hp := phase1_spec sg.1 h.1.1
    have hbase : NZInv (phase1 true sg.1, ([] : Ghost)) := by
      refine ⟨⟨hp.1, ?_⟩, ?_⟩
      · intro q
        rw [hp.2.2.1 q]
        rfl
      · intro q bd hq
        have := hp.2.2.1 q
        rw [blurHas, hq] at this
        simp at this
    exact foldl_preserve _ NZInv
      (fun st w hst => nzInv_checkStep true w.1 w.2.1 w.2.2 st hst) ws _ hbase
  | setSigma v =>
    have hv : v ≠ 0 := he v rfl
    refine ⟨engineInv_applyEvent (Event.setSigma v) sg h.1, ?_⟩
    intro q bd hq
    rw [applyEvent] at hq
    rw [blur_set_sigma] at hq
    rcases hm : mapGet q sg.1.blur_actor_map with _ | bd0 <;> rw [hm] at hq
    · simp at hq
    · simp at hq
      rw [← hq]
      exact hv
  | setBrightness v =>
    refine ⟨engineInv_applyEvent (Event.setBrightness v) sg h.1, ?_⟩
    intro q bd hq
    rw [applyEvent] at hq
    rw [blur_set_brightness] at hq
    rcases hm : mapGet q sg.1.blur_actor_map with _ | bd0 <;> rw [hm] at hq
    · simp at hq
    · simp at hq
      rw [← hq]
      exact h.2 q bd0 hm
  | setPrefs p =>
    refine ⟨engineInv_applyEvent (Event.setPrefs p) sg h.1, ?_⟩
    intro q bd hq
    exact h.2 q bd hq

theorem nzInv_runTrace :
    ∀ (tr : List Event) (sg : SysState × Ghost), (∀ e ∈ tr, eventNZ e) → NZInv sg →
      NZInv (runTrace tr sg) := by
  intro tr
  induction tr with
  | nil => intro sg _ h; simpa [runTrace] using h
  | cons e r ih =>
    intro sg hnz h
    have h1 : NZInv (applyEvent true e sg) :=
      nzInv_applyEvent e sg (hnz e (by simp)) h
    have h2 := ih (applyEvent true e sg) (fun e2 he2 => hnz e2 (by simp [he2])) h1
    simpa [runTrace] using h2

theorem nzInv_of_reachableNZ {s : SysState} {g : Ghost} (h : ReachableNZ s g) :
    NZInv (s, g) := by
  obtain ⟨p, tr, hnz, hrun⟩ := h
  rw [← hrun]
  refine nzInv_runTrace tr _ hnz ⟨engineInv_init p, ?_⟩
  intro q bd hq
  simp [initState, mapGet] at hq

theorem absent_remove (wg : Bool) (pid k : Pid) (s : SysState)
    (hw : windowHas pid s = false) (hb : blurHas pid s = false) :
    windowHas pid (remove_blur wg k s) = false ∧
      blurHas pid (remove_blur wg k s) = false := by
  by_cases hk : pid = k
  · subst hk
    cases wg with
    | false => exact ⟨hw, hb⟩
    | true =>
      constructor
      · exact window_remove_self pid s
      · rw [blurHas] at hb ⊢
        rcases hwv : mapGet pid s.window_map with _ | u
        · simpa [remove_blur, hwv] using hb
        · rw [windowHas, hwv] at hw
          simp at hw
  · rw [windowHas, wget_remove_ne _ _ hk, blurHas, blur_remove_ne _ _ hk]
    exact ⟨hw, hb⟩

theorem absent_check (wg alive : Bool) (pid k : Pid) (wm hint : Option String)
    (s : SysState) (hk : k ≠ pid) (hw : windowHas pid s = false)
    (hb : blurHas pid s = false) :
    windowHas pid (check_blur wg alive k wm hint s) = false ∧
      blurHas pid (check_blur wg alive k wm hint s) = false := by
  rw [windowHas, wget_check_ne _ _ _ _ _ (fun he => hk he.symm),
    blurHas, blur_check_ne _ _ _ _ _ (fun he => hk he.symm)]
  exact ⟨hw, hb⟩

theorem absent_sweep (pid : Pid) (l : List Pid) :
    ∀ s : SysState, windowHas pid s = false → blurHas pid s = false →
      windowHas pid (l.foldl (fun st k => remove_blur true k st) s) = false ∧
        blurHas pid (l.foldl (fun st k => remove_blur true k st) s) = false := by
  induction l with
  | nil => intro s hw hb; exact ⟨hw, hb⟩
  | cons k t ih =>
    intro s hw hb
    have h1 := absent_remove true pid k s hw hb
    simpa using ih (remove_blur true k s) h1.1 h1.2

theorem absent_applyEvent (e : Event) (sg : SysState × Ghost) (pid : Pid)
    (he : eventRetired pid e) (hw : windowHas pid sg.1 = false)
    (hb : blurHas pid sg.1 = false) :
    windowHas pid (applyEvent true e sg).1 = false ∧
      blurHas pid (applyEvent true e sg).1 = false := by
  cases e with
  | checkBlur k wm hint alive =>
    by_cases hk : k = pid
    · subst hk
      have ha : alive = false := he rfl
      subst ha
      have hid := check_dead_unbound true k wm hint sg.1 hb
      simp only [applyEvent, checkStep]
      rw [hid]
      exact ⟨hw, hb⟩
    · exact absent_check true alive pid k wm hint sg.1 hk hw hb
  | destroy k =>
    by_cases hk : k = pid
    · subst hk
      constructor
      · show windowHas k (destroyHandler true k sg.1) = false
        rw [windowHas, wget_destroy_self]
        rfl
      · show blurHas k (destroyHandler true k sg.1) = false
        simp only [destroyHandler, hb, Bool.false_eq_true, if_false]
        exact hb
    · have hk2 : (pid : Pid) ≠ k := fun he2 => hk he2.symm
      rw [applyEvent]
      constructor
      · rw [windowHas, wget_destroy_ne _ _ hk2]
        exact hw
      · rw [blurHas, blur_destroy_ne _ _ hk2]
        exact hb
  | rescan ws =>
    have hph := absent_sweep pid (sg.1.window_map.map Prod.fst) sg.1 hw hb
    have hgen : ∀ (l : List (Pid × Option String × Option String))
        (t : SysState × Ghost), (∀ w ∈ l, w.1 ≠ pid) →
        windowHas pid t.1 = false → blurHas pid t.1 = false →
        windowHas pid
          (l.foldl (fun t2 w => checkStep true true w.1 w.2.1 w.2.2 t2) t).1 = false ∧
          blurHas pid
            (l.foldl (fun t2 w => checkStep true true w.1 w.2.1 w.2.2 t2) t).1 = false := by
      intro l
      induction l with
      | nil => intro t _ hw2 hb2; exact ⟨hw2, hb2⟩
      | cons w r ih =>
        intro t hav hw2 hb2
        have h1 := absent_check true true pid w.1 w.2.1 w.2.2 t.1 (hav w (by simp)) hw2 hb2
        have h2 := ih (checkStep true true w.1 w.2.1 w.2.2 t)
          (fun w2 hw3 => hav w2 (by simp [hw3])) h1.1 h1.2
        simpa using h2
    exact hgen ws (phase1 true sg.1, []) he hph.1 hph.2
  | setSigma v =>
    rw [applyEvent]
    constructor
    · exact hw
    · rw [blurHas, blur_set_sigma]
      rw [blurHas] at hb
      rcases hm : mapGet pid sg.1.blur_actor_map with _ | bd0
      · simp
      · rw [hm] at hb
        simp at hb
  | setBrightness v =>
    rw [applyEvent]
    constructor
    · exact hw
    · rw [blurHas, blur_set_brightness]
      rw [blurHas] at hb
      rcases hm : mapGet pid sg.1.blur_actor_map with _ | bd0
      · simp
      · rw [hm] at hb
        simp at hb
  | setPrefs p => exact ⟨hw, hb⟩

/- Parser support lemmas. -/

theorem matchAfterMarker_none {l : List Char}
    (h : containsSub markerChars l = false) : matchAfterMarker l = none := by
  induction l with
  | nil => rfl
  | cons c r ih =>
    rw [containsSub, Bool.or_eq_false_iff] at h
    rw [matchAfterMarker]
    simp only [h.1, Bool.false_eq_true, if_false]
    exact ih h.2

theorem jsParseInt_digits {cap : List Char} (hne : cap ≠ [])
    (hdig : ∀ c ∈ cap, c.isDigit = true) : jsParseInt cap = some (digitsVal cap) := by
  have htake : cap.takeWhile Char.isDigit = cap :=
    List.takeWhile_eq_self_iff.mpr hdig
  rcases cap with _ | ⟨c, rest⟩
  · exact absurd rfl hne
  have hc : c.isDigit = true := hdig c (by simp)
  have hws : isWS c = false := not_isWS_of_isDigit hc
  have hminus : ¬ c = '-' := fun he => absurd (he ▸ hc) (by decide)
  have hplus : ¬ c = '+' := fun he => absurd (he ▸ hc) (by decide)
  have hdrop : (c :: rest).dropWhile isWS = c :: rest := by
    rw [List.dropWhile_cons_of_neg]
    simp [hws]
  have hsign : readSignInt (c :: rest) = (1, c :: rest) := by
    rw [readSignInt]
    simp [hminus, hplus]
  simp only [jsParseInt, hdrop, hsign]
  split
  · rename_i x r heq
    have hcx : c = '0' ∧ rest = x :: r := by
      constructor
      · exact (List.cons.injEq _ _ _ _ ▸ heq).1  
      · exact (List.cons.injEq _ _ _ _ ▸ heq).2
    have hx : x.isDigit = true := by
      apply hdig
      rw [hcx.2]
      simp
    have hxx : ¬ (x = 'x' || x = 'X') = true := by
      simp only [Bool.or_eq_true, decide_eq_true_eq]
      rintro (he | he) <;> exact absurd (he ▸ hx) (by decide)
    simp [hxx, htake]
  · simp only [htake, one_mul]
    have hne2 : (c :: rest).isEmpty = false := by simp
    simp [hne2]

theorem digitsVal_nonneg (l : List Char) : 0 ≤ digitsVal l := by
  rw [digitsVal]
  exact Int.natCast_nonneg _

theorem remove_blur_self_sync (pid : Pid) (s : SysState)
    (hsync : windowHas pid s = blurHas pid s) (hb : blurHas pid s = true) :
    windowHas pid (remove_blur true pid s) = false ∧
      blurHas pid (remove_blur true pid s) = false := by
  have hw : windowHas pid s = true := by rw [hsync, hb]
  rcases hwv : mapGet pid s.window_map with _ | u
  · rw [windowHas, hwv] at hw
    simp at hw
  · rcases hbv : mapGet pid s.blur_actor_map with _ | v
    · rw [blurHas, hbv] at hb
      simp at hb
    · constructor <;>
        simp [remove_blur, hwv, hbv, windowHas, blurHas, mapGet_mapDelete_self]

/-- C8: the offset calculator is the pure total function subtracting the
buffer rectangle from the frame rectangle componentwise; on the frame
(10, 10, 100, 50) and buffer (0, 0, 120, 70) it yields
(10, 10, -20, -20). -/
theorem c8_compute_offset :
    (∀ frame buffer : Rect, compute_offset frame buffer =
      { x := frame.x - buffer.x, y := frame.y - buffer.y,
        width := frame.width - buffer.width, height := frame.height - buffer.height }) ∧
    compute_offset { x := 10, y := 10, width := 100, height := 50 }
        { x := 0, y := 0, width := 120, height := 70 } =
      { x := 10, y := 10, width := -20, height := -20 } :=
  ⟨fun _ _ => rfl, by decide⟩

/-- C9: remove_blur on a token absent from both maps is a no-op, leaving
the state unchanged, whatever the container availability. -/
theorem c9_remove_idempotent (wg : Bool) (pid : Pid) (s : SysState)
    (hw : windowHas pid s = false) (hb : blurHas pid s = false) :
    remove_blur wg pid s = s := by
  cases wg with
  | false => simp [remove_blur]
  | true =>
    rw [windowHas] at hw
    simp [remove_blur, isSome_false_eq_none hw]

/-- Witness for C9 at a concrete unbound token. -/
theorem c9_witness :
    windowHas "p" (initState exPrefs) = false ∧
    blurHas "p" (initState exPrefs) = false ∧
    remove_blur true "p" (initState exPrefs) = initState exPrefs :=
  ⟨by decide, by decide,
    c9_remove_idempotent true "p" (initState exPrefs) (by decide) (by decide)⟩

/-- C10: when global.window_group is null, remove_blur returns at once
leaving both maps unchanged, and the destroy handler in that state still
deletes the token from the window map while the binding map keeps it, so
the two key sets diverge during shutdown. -/
theorem c10_null_container (pid : Pid) (s : SysState) :
    remove_blur false pid s = s ∧
    (blurHas pid s = true →
      windowHas pid (destroyHandler false pid s) = false ∧
      blurHas pid (destroyHandler false pid s) = true ∧
      (destroyHandler false pid s).blur_actor_map = s.blur_actor_map) := by
  constructor
  · simp [remove_blur]
  · intro hb
    refine ⟨?_, ?_, ?_⟩
    · simp [destroyHandler, hb, remove_blur, windowHas, mapGet_mapDelete_self]
    · simpa [destroyHandler, hb, remove_blur, blurHas] using hb
    · simp [destroyHandler, hb, remove_blur]

/-- Witness for C10 at a concrete bound token. -/
theorem c10_witness :
    blurHas "p" c3State = true ∧
    windowHas "p" (destroyHandler false "p" c3State) = false ∧
    blurHas "p" (destroyHandler false "p" c3State) = true := by
  refine ⟨by decide, ?_, ?_⟩
  · exact ((c10_null_container "p" c3State).2 (by decide)).1
  · exact ((c10_null_container "p" c3State).2 (by decide)).2.1

/-- C7: the global propagations overwrite the corresponding parameter of
every bound effect and change nothing else: the window map, the binding
key set and the stored preferences are untouched. -/
theorem c7_propagation :
    (∀ (v : Int) (s : SysState),
      (set_sigma v s).window_map = s.window_map ∧
      (set_sigma v s).prefs = s.prefs ∧
      ∀ q : Pid, mapGet q (set_sigma v s).blur_actor_map =
        (mapGet q s.blur_actor_map).map (fun bd => { bd with sigma := v })) ∧
    (∀ (v : Option ℚ) (s : SysState),
      (set_brightness v s).window_map = s.window_map ∧
      (set_brightness v s).prefs = s.prefs ∧
      ∀ q : Pid, mapGet q (set_brightness v s).blur_actor_map =
        (mapGet q s.blur_actor_map).map (fun bd => { bd with brightness := v })) :=
  ⟨fun v s => ⟨rfl, rfl, fun q => blur_set_sigma v q s⟩,
   fun v s => ⟨rfl, rfl, fun q => blur_set_brightness v q s⟩⟩

/-- C4: when the text captured after the marker blur-provider= is a
digit string of value at most 999, parse_xprop returns the fallback
brightness with that value as sigma; when the marker is absent the
fallback pair is returned unchanged. -/
theorem c4_sigma_shorthand :
    (∀ (p : Prefs) (property : String) (cap : List Char),
      matchAfterMarker property.toList = some cap → cap ≠ [] →
      (∀ c ∈ cap, c.isDigit = true) → digitsVal cap ≤ 999 →
      parse_xprop p property = ((prefParams p).1, digitsVal cap)) ∧
    (∀ (p : Prefs) (property : String),
      containsSub markerChars property.toList = false →
      parse_xprop p property = prefParams p) := by
  constructor
  · intro p property cap hm hne hdig hle
    have hint := jsParseInt_digits hne hdig
    have hpos := digitsVal_nonneg cap
    simp only [parse_xprop, hm, hint, hpos, hle, and_self, if_true]
  · intro p property hnm
    simp only [parse_xprop, matchAfterMarker_none hnm]

/-- Witness for C4: parsing blur-provider=60 with fallback (0.9, 40)
yields (0.9, 60), and a string without the marker returns the fallback
pair unchanged. -/
theorem c4_witness :
    parse_xprop exPrefs "blur-provider=60" = (some (9/10), 60) ∧
    parse_xprop exPrefs "no marker here" = (some (9/10), 40) := by
  constructor
  · have h := c4_sigma_shorthand.1 exPrefs "blur-provider=60" ['6', '0']
      (by decide) (by decide) (by decide) (by decide)
    rw [h]
    rfl
  · have h := c4_sigma_shorthand.2 exPrefs "no marker here" (by decide)
    rw [h]
    rfl

/-- C2 counterexample: a window of class Foo, blacklisted while
enable-all is true, whose hint contains the marker, is not Disabled by
check_blur: the hint branch runs and a binding is created. The claim
that the hint is never consulted for an explicitly classified window
fails, since the branch chain of check_blur falls through to the hint
test when the blacklist test fails. -/
theorem c2_counterexample :
    check_blur_decision exPrefs (some "Foo") (some "blur-provider=60") =
      Decision.enabled (some (9/10)) 60 ∧
    blurHas "p" (check_blur true true "p" (some "Foo") (some "blur-provider=60")
      (initState exPrefs)) = true := by
  constructor
  · rfl
  · decide

/-- C2 (amended): a window whose non-empty class is blacklisted while
enable-all is true is Disabled, and any binding it has is removed,
provided its hint is absent or lacks the blur-provider marker; when the
hint carries the marker the hint branch decides instead. -/
theorem c2_blacklisted_disabled (s : SysState) (pid : Pid) (cls : String)
    (hint : Option String) (alive : Bool) (hcls : cls ≠ "")
    (hall : s.prefs.applications.ENABLE_ALL = true)
    (hbl : s.prefs.applications.BLACKLIST.contains cls = true)
    (hhint : hintHasMarker hint = false)
    (hsync : windowHas pid s = blurHas pid s) :
    check_blur_decision s.prefs (some cls) hint = Decision.disabled ∧
    blurHas pid (check_blur true alive pid (some cls) hint s) = false := by
  have hmem : cls ∈ s.prefs.applications.BLACKLIST := by simpa using hbl
  have hcl : classListed s.prefs (some cls) = false := by
    simp [classListed, hall, listIncludes, hmem]
  have hd : check_blur_decision s.prefs (some cls) hint = Decision.disabled := by
    rcases hint with _ | h
    · simp [check_blur_decision, hcl]
    · have hm : containsSub ("blur-provider".toList) h.toList = false := by
        simpa [hintHasMarker] using hhint
      simp only [check_blur_decision, hcl, Bool.false_eq_true, if_false, hm]
  refine ⟨hd, ?_⟩
  rw [check_blur, hd]
  by_cases hb : blurHas pid s
  · simp only [hb, if_true]
    exact (remove_blur_self_sync pid s hsync hb).2
  · have hb' : blurHas pid s = false := by simpa using hb
    simp [hb']

/-- Witness for the amended C2 at a concrete blacklisted window with a
markerless hint and a live binding. -/
theorem c2_witness :
    check_blur_decision c3State.prefs (some "Foo") (some "no marker") =
      Decision.disabled ∧
    blurHas "p" (check_blur true true "p" (some "Foo") (some "no marker") c3State) = false := by
  have h := c2_blacklisted_disabled c3State "p" "Foo" (some "no marker") true
    (by decide) (by decide) (by decide) (by decide) (by decide)
  exact h

theorem parse_xprop_fields (p : Prefs) (s : String) (a : List Char)
    (h1 : matchAfterMarker s.toList = some a) (h2 : jsParseInt a = none) :
    parse_xprop p s = fieldPath (prefParams p).1 (prefParams p).2 a := by
  simp only [parse_xprop, h1, h2]

theorem pickSigma_default (s0 : Int) : pickSigma s0 (some defaultChars) = s0 := by
  simp [pickSigma]

theorem pickSigma_cap (s0 : Int) (cap : List Char) (h : ¬ cap = defaultChars) :
    pickSigma s0 (some cap) = (jsParseInt cap).getD s0 := by
  simp [pickSigma, h]

theorem pickBrightness_cap (b0 : Option ℚ) (cap : List Char) (h : ¬ cap = defaultChars) :
    pickBrightness b0 (some cap) = jsParseFloat cap := by
  simp [pickBrightness, h]

theorem jsParseFloat_half : jsParseFloat ("0.5".toList) = some (1/2) := by
  show jsParseFloat ['0', '.', '5'] = some (1/2)
  simp [jsParseFloat, readSignInt, decNat, applyExp, isWS, isLineTerm]
  norm_num

theorem jsParseFloat_one : jsParseFloat ("1.0".toList) = some 1 := by
  show jsParseFloat ['1', '.', '0'] = some 1
  simp [jsParseFloat, readSignInt, decNat, applyExp, isWS, isLineTerm]

theorem jsParseFloat_five : jsParseFloat ("05".toList) = some 5 := by
  show jsParseFloat ['0', '5'] = some 5
  simp [jsParseFloat, readSignInt, decNat, applyExp, isWS, isLineTerm]

/-- C5 counterexample: parsing blur-provider=brightness:0.5 with
fallback (0.9, 40). The claim requires the sigma fallback 40 to survive,
the sigma field being absent; the sigma regex however matches the final
letter of the word brightness followed by the leading 0 of the value, so
the code returns sigma 0, not 40. -/
theorem c5_counterexample :
    prefParams exPrefs = (some (9/10), 40) ∧
    parse_xprop exPrefs "blur-provider=brightness:0.5" = (some (1/2), 0) := by
  refine ⟨rfl, ?_⟩
  rw [parse_xprop_fields exPrefs _ ("brightness:0.5".toList) (by decide) (by decide)]
  rw [fieldPath]
  have hb : searchB ("brightness:0.5".toList) = some ("0.5".toList) := by decide
  have hs : searchS ("brightness:0.5".toList) = some ("0".toList) := by decide
  rw [hb, hs, pickSigma_cap _ _ (by decide), pickBrightness_cap _ _ (by decide),
    jsParseFloat_half]
  rfl

/-- C5 (amended): the labelled fields are matched order independently
and a field holding the literal default keeps the fallback, but the
value shapes are looser than the claim states: the dot of the brightness
pattern is an unescaped any-character, the sigma match takes a one to
three digit prefix of a longer digit run, and the one letter sigma label
s can match inside surrounding text such as the end of the word
brightness. The last three conjuncts witness these behaviours for every
fallback pair. -/
theorem c5_labelled_fields (p : Prefs) :
    parse_xprop p "blur-provider=sigma:default,brightness:0.5" =
      (some (1/2), (prefParams p).2) ∧
    parse_xprop p "blur-provider=b:1.0,s:16" = (some 1, 16) ∧
    parse_xprop p "blur-provider=s:16,b:1.0" = (some 1, 16) ∧
    parse_xprop p "blur-provider=brightness:0.5" = (some (1/2), 0) ∧
    parse_xprop p "blur-provider=s:1234" = ((prefParams p).1, 123) ∧
    parse_xprop p "blur-provider=b:05,s:16" = (some 5, 16) := by
  refine ⟨?_, ?_, ?_, ?_, ?_, ?_⟩
  · rw [parse_xprop_fields p _ ("sigma:default,brightness:0.5".toList) (by decide) (by decide)]
    rw [fieldPath]
    have hb : searchB ("sigma:default,brightness:0.5".toList) = some ("0.5".toList) := by
      decide
    have hs : searchS ("sigma:default,brightness:0.5".toList) = some defaultChars := by
      decide
    rw [hb, hs, pickSigma_default, pickBrightness_cap _ _ (by decide), jsParseFloat_half]
  · rw [parse_xprop_fields p _ ("b:1.0,s:16".toList) (by decide) (by decide)]
    rw [fieldPath]
    have hb : searchB ("b:1.0,s:16".toList) = some ("1.0".toList) := by decide
    have hs : searchS ("b:1.0,s:16".toList) = some ("16".toList) := by decide
    rw [hb, hs, pickSigma_cap _ _ (by decide), pickBrightness_cap _ _ (by decide),
      jsParseFloat_one]
    rfl
  · rw [parse_xprop_fields p _ ("s:16,b:1.0".toList) (by decide) (by decide)]
    rw [fieldPath]
    have hb : searchB ("s:16,b:1.0".toList) = some ("1.0".toList) := by decide
    have hs : searchS ("s:16,b:1.0".toList) = some ("16".toList) := by decide
    rw [hb, hs, pickSigma_cap _ _ (by decide), pickBrightness_cap _ _ (by decide),
      jsParseFloat_one]
    rfl
  · rw [parse_xprop_fields p _ ("brightness:0.5".toList) (by decide) (by decide)]
    rw [fieldPath]
    have hb : searchB ("brightness:0.5".toList) = some ("0.5".toList) := by decide
    have hs : searchS ("brightness:0.5".toList) = some ("0".toList) := by decide
    rw [hb, hs, pickSigma_cap _ _ (by decide), pickBrightness_cap _ _ (by decide),
      jsParseFloat_half]
    rfl
  · rw [parse_xprop_fields p _ ("s:1234".toList) (by decide) (by decide)]
    rw [fieldPath]
    have hb : searchB ("s:1234".toList) = none := by decide
    have hs : searchS ("s:1234".toList) = some ("123".toList) := by decide
    rw [hb, hs, pickSigma_cap _ _ (by decide)]
    rfl
  · rw [parse_xprop_fields p _ ("b:05,s:16".toList) (by decide) (by decide)]
    rw [fieldPath]
    have hb : searchB ("b:05,s:16".toList) = some ("05".toList) := by decide
    have hs : searchS ("b:05,s:16".toList) = some ("16".toList) := by decide
    rw [hb, hs, pickSigma_cap _ _ (by decide), pickBrightness_cap _ _ (by decide),
      jsParseFloat_five]
    rfl

/-- C3 counterexample: a destruction event does not always remove the
token from both maps. In a state where the parent container is already
gone, the destroy handler deletes the token from the window map but the
binding map keeps it, since remove_blur returns at once. -/
theorem c3_counterexample :
    windowHas "p" c3State = true ∧ blurHas "p" c3State = true ∧
    blurHas "p" (destroyHandler false "p" c3State) = true := by
  refine ⟨by decide, by decide, by decide⟩

/-- C3 (amended): provided the parent container is available, the
destroy handler for a token removes it from both maps within that
handler run, and afterwards every handler for the token is a no-op and
no handler for another token reinserts it: a property change handler
for the destroyed token finds its window actor gone and either takes
the removal path over the already empty maps or throws inside
create_blur_effect before the two map registrations, leaving the state
unchanged; a second destroy handler run is the identity; and any event
admissible once the token is retired keeps it absent from both maps. -/
theorem c3_destroy_removes (pid : Pid) :
    (∀ s : SysState, windowHas pid s = blurHas pid s →
      windowHas pid (destroyHandler true pid s) = false ∧
      blurHas pid (destroyHandler true pid s) = false) ∧
    (∀ (wg : Bool) (wm hint : Option String) (s : SysState), blurHas pid s = false →
      check_blur wg false pid wm hint s = s) ∧
    (∀ s : SysState, windowHas pid s = false → blurHas pid s = false →
      destroyHandler true pid s = s) ∧
    (∀ (e : Event) (sg : SysState × Ghost), eventRetired pid e →
      windowHas pid sg.1 = false → blurHas pid sg.1 = false →
      windowHas pid (applyEvent true e sg).1 = false ∧
      blurHas pid (applyEvent true e sg).1 = false) := by
  refine ⟨?_, ?_, ?_, ?_⟩
  · intro s hsync
    by_cases hb : blurHas pid s
    · have hr := remove_blur_self_sync pid s hsync hb
      constructor
      · simp [destroyHandler, hb, windowHas, mapGet_mapDelete_self]
      · rw [destroyHandler]
        simp only [hb, if_true]
        exact hr.2
    · have hb2 : blurHas pid s = false := by simpa using hb
      constructor
      · simp [destroyHandler, hb2, windowHas, mapGet_mapDelete_self]
      · rw [destroyHandler]
        simp only [hb2, Bool.false_eq_true, if_false]
        exact hb2
  · intro wg wm hint s hb
    exact check_dead_unbound wg pid wm hint s hb
  · intro s hw hb
    rw [windowHas] at hw
    simp [destroyHandler, hb, mapDelete_of_get_none (isSome_false_eq_none hw)]
  · intro e sg he hw hb
    exact absent_applyEvent e sg pid he hw hb

/-- Witness for the amended C3 at a concrete bound token, a post-destroy
property change handler for the retired token whose decision would
create a binding but whose window actor is gone, a second destroy run,
and a retired-token event step. -/
theorem c3_witness :
    (windowHas "p" (destroyHandler true "p" c3State) = false ∧
      blurHas "p" (destroyHandler true "p" c3State) = false) ∧
    check_blur true false "p" (some "Foo") (some "blur-provider=60")
      (initState exPrefs) = initState exPrefs ∧
    destroyHandler true "p" (initState exPrefs) = initState exPrefs ∧
    (windowHas "p" (applyEvent true
        (Event.checkBlur "p" (some "Foo") (some "blur-provider=60") false)
        (initState exPrefs, [])).1 = false ∧
      blurHas "p" (applyEvent true
        (Event.checkBlur "p" (some "Foo") (some "blur-provider=60") false)
        (initState exPrefs, [])).1 = false) := by
  refine ⟨?_, ?_, ?_, ?_⟩
  · exact (c3_destroy_removes "p").1 c3State (by decide)
  · exact (c3_destroy_removes "p").2.1 true (some "Foo") (some "blur-provider=60")
      (initState exPrefs) (by decide)
  · exact (c3_destroy_removes "p").2.2.1 (initState exPrefs) (by decide) (by decide)
  · exact (c3_destroy_removes "p").2.2.2
      (Event.checkBlur "p" (some "Foo") (some "blur-provider=60") false)
      (initState exPrefs, []) (by simp [eventRetired]) (by decide) (by decide)

/-- C1 counterexample: a stored binding can hold sigma 0. Starting from
the empty state, a policy decision binds the token with sigma 40, then
the global propagation set_sigma 0 overwrites the stored sigma with 0
while the binding stays in the map, as the FIXME above set_sigma in the
source concedes. -/
theorem c1_counterexample :
    Reachable c1Pair.1 c1Pair.2 ∧
    mapGet "p" c1Pair.1.blur_actor_map =
      some { brightness := some (9/10), sigma := 0 } := by
  constructor
  · exact ⟨exPrefsWL, c1Trace, rfl⟩
  · rfl

/-- C1 (amended): at every reachable quiescence point a token is in the
binding map exactly when the most recent policy decision for it was
enabled with a non zero sigma; update_blur with sigma 0 removes a bound
token from both maps and does nothing on an unbound one; and along
traces whose global sigma propagations are all non zero, no stored
binding has sigma 0. A global set_sigma 0, however, stores sigma 0 in
every live binding, which is the only deviation from the claim. -/
theorem c1_binding_invariant :
    (∀ (s : SysState) (g : Ghost), Reachable s g →
      ∀ q : Pid, blurHas q s = (mapGet q g).elim false decisionOn) ∧
    (∀ (s : SysState) (pid : Pid) (b : Option ℚ) (alive : Bool),
      windowHas pid s = blurHas pid s → blurHas pid s = true →
      blurHas pid (update_blur true alive pid b 0 s) = false ∧
      windowHas pid (update_blur true alive pid b 0 s) = false) ∧
    (∀ (s : SysState) (pid : Pid) (b : Option ℚ) (alive : Bool), blurHas pid s = false →
      update_blur true alive pid b 0 s = s) ∧
    (∀ (s : SysState) (g : Ghost), ReachableNZ s g →
      ∀ (q : Pid) (bd : BlurBinding),
        mapGet q s.blur_actor_map = some bd → bd.sigma ≠ 0) := by
  refine ⟨?_, ?_, ?_, ?_⟩
  · intro s g h q
    exact (engineInv_of_reachable h).2 q
  · intro s pid b alive hsync hb
    have hr := remove_blur_self_sync pid s hsync hb
    rw [update_blur]
    simp only [hb, if_true, if_pos rfl]
    exact ⟨hr.2, hr.1⟩
  · intro s pid b alive hb
    simp [update_blur, hb]
  · intro s g h q bd hq
    exact (nzInv_of_reachableNZ h).2 q bd hq

/-- Witness for the amended C1: the invariant at a reachable state, the
removal and no-op behaviours of update_blur with sigma 0, and a non zero
binding along a propagation-free trace. -/
theorem c1_witness :
    blurHas "p" c1Pair.1 = (mapGet "p" c1Pair.2).elim false decisionOn ∧
    (blurHas "p" (update_blur true true "p" (some 1) 0 c3State) = false ∧
      windowHas "p" (update_blur true true "p" (some 1) 0 c3State) = false) ∧
    update_blur true true "p" (some 1) 0 (initState exPrefs) = initState exPrefs ∧
    ((40 : Int) ≠ 0) := by
  refine ⟨?_, ?_, ?_, ?_⟩
  · exact c1_binding_invariant.1 c1Pair.1 c1Pair.2 ⟨exPrefsWL, c1Trace, rfl⟩ "p"
  · exact c1_binding_invariant.2.1 c3State "p" (some 1) true (by decide) (by decide)
  · exact c1_binding_invariant.2.2.1 (initState exPrefs) "p" (some 1) true (by decide)
  · have hnz : ReachableNZ c1NZPair.1 c1NZPair.2 := by
      refine ⟨exPrefsWL, c1NZTrace, ?_, rfl⟩
      intro e he v hv
      simp [c1NZTrace] at he
      subst he
      simp at hv
    have hget : mapGet "p" c1NZPair.1.blur_actor_map =
        some { brightness := some (9/10), sigma := 40 } := rfl
    exact c1_binding_invariant.2.2.2 c1NZPair.1 c1NZPair.2 hnz "p"
      { brightness := some (9/10), sigma := 40 } hget

theorem fold_track_mem (q : Pid) :
    ∀ (l : List (Pid × Option String × Option String)) (s : SysState),
      blurHas q (l.foldl (fun st w => track_new true true w.1 w.2.1 w.2.2 st) s) = true →
      q ∈ l.map Prod.fst ∨ blurHas q s = true := by
  intro l
  induction l with
  | nil => intro s h; exact Or.inr h
  | cons w r ih =>
    intro s h
    rw [List.foldl_cons] at h
    rcases ih _ h with hm | hb
    · exact Or.inl (by simp [hm])
    · by_cases hq : q = w.1
      · exact Or.inl (by simp [hq])
      · rw [track_new, blurHas, blur_check_ne _ _ _ _ _ hq] at hb
        exact Or.inr hb

theorem keysync_track (w : Pid × Option String × Option String) {s : SysState}
    (h : keysync s) : keysync (track_new true true w.1 w.2.1 w.2.2 s) :=
  keysync_check true w.1 w.2.1 w.2.2 h

/-- C6: from any reachable state, a full rescan first removes every
binding, and afterwards the binding map keys all come from the tokens of
the enumerated windows and are keys of the window map as well: no
orphaned binding survives. -/
theorem c6_rescan_no_orphans (s : SysState) (g : Ghost)
    (ws : List (Pid × Option String × Option String)) (h : Reachable s g) :
    (∀ q : Pid, blurHas q (phase1 true s) = false) ∧
    keysync (update_all_windows true ws s) ∧
    (∀ q : Pid, blurHas q (update_all_windows true ws s) = true →
      q ∈ ws.map Prod.fst ∧ windowHas q (update_all_windows true ws s) = true) := by
  have hks : keysync s := (engineInv_of_reachable h).1
  have hp := phase1_spec s hks
  have hsync : keysync (update_all_windows true ws s) := by
    rw [update_all_windows]
    exact foldl_preserve _ keysync (fun st w hst => keysync_track w hst) ws _ hp.1
  refine ⟨hp.2.2.1, hsync, ?_⟩
  intro q hq
  have hm := fold_track_mem q ws (phase1 true s) (by
    rw [update_all_windows] at hq
    exact hq)
  rcases hm with hm | hb
  · refine ⟨hm, ?_⟩
    rw [hsync q]
    exact hq
  · rw [hp.2.2.1 q] at hb
    simp at hb

/-- Witness for C6: a rescan from the empty reachable state over one
whitelisted window binds exactly that token in both maps. -/
theorem c6_witness :
    blurHas "w1" (phase1 true (initState exPrefsWL)) = false ∧
    ("w1" ∈ ([("w1", some "Foo", none)] :
        List (Pid × Option String × Option String)).map Prod.fst ∧
      windowHas "w1" (update_all_windows true [("w1", some "Foo", none)]
        (initState exPrefsWL)) = true) := by
  have h := c6_rescan_no_orphans (initState exPrefsWL) [] [("w1", some "Foo", none)]
    ⟨exPrefsWL, [], rfl⟩
  exact ⟨h.1 "w1", h.2.2 "w1" (by decide)⟩

/-- Witness for the amended C5 at the concrete fallback pair (0.9, 40). -/
theorem c5_witness :
    parse_xprop exPrefs "blur-provider=b:1.0,s:16" = (some 1, 16) ∧
    parse_xprop exPrefs "blur-provider=sigma:default,brightness:0.5" = (some (1/2), 40) := by
  have h := c5_labelled_fields exPrefs
  refine ⟨h.2.1, ?_⟩
  rw [h.1]
  rfl
